import Mathlib

/-!
# Verification of the UART simulation harness (`sim/tb_uart.cpp`)

The harness drives a Verilated UART model through seven signals
(`clk`, `rst_n`, `rx`, `addr`, `wdata`, `wr_en`, `rd_en`).  Its behaviour is a
straight-line initialization phase (signal assignments interleaved with
`clk = !clk; eval(); dump(sim_time)` steps) followed by a `while` loop that
toggles the clock until `sim_time` reaches `MAX_SIM_TIME`, issuing a STATUS
read whenever `sim_time` is a multiple of 100000.

We embed the harness shallowly: the signal record `Sig` mirrors the driven
inputs, the initialization phase is a literal list of statements (`Stmt`)
executed by `runStmts`, and the main loop is `mainLoopF`, a fuel-indexed
recursion whose fuel (`MAX_SIM_TIME`) strictly exceeds the number of loop
iterations.  Every `eval()`/`dump()` pair in the C++ produces one event
`(dump time, signal values)` in the trace, so trace-level statements talk
about exactly the states the simulated model observes.
-/

/-- The driven input signals of the Verilated UART model, as assigned by the
harness (`uart->clk`, `uart->rst_n`, `uart->rx`, `uart->addr`, `uart->wdata`,
`uart->wr_en`, `uart->rd_en`).  All are modelled as `Nat` holding the values
the harness actually writes (0/1 for the single-bit signals). -/
structure Sig where
  clk : Nat
  rst_n : Nat
  rx : Nat
  addr : Nat
  wdata : Nat
  wr_en : Nat
  rd_en : Nat
deriving DecidableEq, Repr

/-- `clk = !clk`: C logical negation on the clock value. -/
def toggle (s : Sig) : Sig :=
  { s with clk := if s.clk = 0 then 1 else 0 }

/-- `MAX_SIM_TIME` from the harness. -/
def MAX_SIM_TIME : Nat := 1000000

/-- One statement of the straight-line initialization phase: an assignment to
a driven signal, or `tick` = `clk = !clk; uart->eval(); tfp->dump(sim_time++);`. -/
inductive Stmt where
  | setClk (v : Nat)
  | setRstN (v : Nat)
  | setRx (v : Nat)
  | setAddr (v : Nat)
  | setWdata (v : Nat)
  | setWrEn (v : Nat)
  | setRdEn (v : Nat)
  | tick
deriving DecidableEq, Repr

/-- Effect of one statement on the signal state. -/
def Stmt.apply : Stmt → Sig → Sig
  | .setClk v, s => { s with clk := v }
  | .setRstN v, s => { s with rst_n := v }
  | .setRx v, s => { s with rx := v }
  | .setAddr v, s => { s with addr := v }
  | .setWdata v, s => { s with wdata := v }
  | .setWrEn v, s => { s with wr_en := v }
  | .setRdEn v, s => { s with rd_en := v }
  | .tick, s => toggle s

/-- Run a statement list from signal state `s` at simulation time `t`.
Returns the event trace (one `(dump time, signal state)` entry per `tick`,
i.e. per `eval()`/`dump()` pair), the list of all intermediate signal states
(one per statement, in execution order), and the final state and time. -/
def runStmts : Sig → Nat → List Stmt → List (Nat × Sig) × List Sig × Sig × Nat
  | s, t, [] => ([], [], s, t)
  | s, t, Stmt.tick :: rest =>
    let s1 := toggle s
    let r := runStmts s1 (t + 1) rest
    ((t, s1) :: r.1, s1 :: r.2.1, r.2.2)
  | s, t, st :: rest =>
    let s1 := st.apply s
    let r := runStmts s1 t rest
    (r.1, s1 :: r.2.1, r.2.2)

/-- All-zero signal state before the harness performs its initial
assignments (the harness assigns every field before the first `eval()`). -/
def sigZero : Sig :=
  { clk := 0, rst_n := 0, rx := 1, addr := 0, wdata := 0, wr_en := 0, rd_en := 0 }

/-- The initialization phase of `main`, statement by statement:
initial signal values, ten reset half-periods, reset release, two idle
half-periods, then the three MMIO writes (BAUD_DIV := 27, CTRL := 0x1,
TX_DATA := 0x55), each driven across two clock half-periods with `wr_en`
deasserted afterwards. -/
def harnessStmts : List Stmt :=
  [Stmt.setClk 0, Stmt.setRstN 0, Stmt.setRx 1, Stmt.setAddr 0,
   Stmt.setWdata 0, Stmt.setWrEn 0, Stmt.setRdEn 0]
  ++ List.replicate 10 Stmt.tick
  ++ [Stmt.setRstN 1, Stmt.tick, Stmt.tick]
  ++ [Stmt.setAddr 0x2, Stmt.setWdata 27, Stmt.setWrEn 1,
      Stmt.tick, Stmt.tick, Stmt.setWrEn 0]
  ++ [Stmt.setAddr 0x0, Stmt.setWdata 0x1, Stmt.setWrEn 1,
      Stmt.tick, Stmt.tick, Stmt.setWrEn 0]
  ++ [Stmt.setAddr 0x3, Stmt.setWdata 0x55, Stmt.setWrEn 1,
      Stmt.tick, Stmt.tick, Stmt.setWrEn 0]

/-- State at the first `eval()` of the STATUS read: after
`addr = 0x1; rd_en = 1; clk = !clk;`, starting from the state `s` the loop
body had after its leading clock toggle. -/
def readSig1 (s : Sig) : Sig :=
  toggle { s with addr := 0x1, rd_en := 1 }

/-- State at the second `eval()` of the STATUS read (one more `clk = !clk`). -/
def readSig2 (s : Sig) : Sig :=
  toggle (readSig1 s)

/-- State after the STATUS read deasserts `rd_en = 0`. -/
def readSigEnd (s : Sig) : Sig :=
  { readSig2 s with rd_en := 0 }

/-- Prepend the events of one loop iteration to the result of the remaining
iterations. -/
def withEvents (pre : List (Nat × Sig)) (r : List (Nat × Sig) × Sig × Nat) :
    List (Nat × Sig) × Sig × Nat :=
  (pre ++ r.1, r.2)

/-- The main `while (sim_time < MAX_SIM_TIME)` loop, with explicit fuel.
Each iteration toggles the clock, evaluates and dumps at the current time;
when the time is a multiple of 100000 it additionally performs the STATUS
read: set `addr := 0x1`, `rd_en := 1`, drive two clock half-periods (dumping
at `t` and `t + 1`, incrementing the time twice), then deassert `rd_en`;
finally the time advances by one, so the next iteration starts at `t + 3`
(after a read) or `t + 1`.  Returns the event trace and the final state and
time. -/
def mainLoopF : Nat → Sig → Nat → List (Nat × Sig) × Sig × Nat
  | 0, s, t => ([], s, t)
  | fuel + 1, s, t =>
    if t < MAX_SIM_TIME then
      if t % 100000 = 0 then
        withEvents
          [(t, toggle s), (t, readSig1 (toggle s)), (t + 1, readSig2 (toggle s))]
          (mainLoopF fuel (readSigEnd (toggle s)) (t + 3))
      else
        withEvents [(t, toggle s)] (mainLoopF fuel (toggle s) (t + 1))
    else ([], s, t)

/-- The initialization phase, executed. -/
def initRun : List (Nat × Sig) × List Sig × Sig × Nat :=
  runStmts sigZero 0 harnessStmts

/-- Event trace of the initialization phase (18 events, times 0–17). -/
def initTrace : List (Nat × Sig) := initRun.1

/-- All intermediate signal states of the initialization phase, one per
executed statement. -/
def initStates : List Sig := initRun.2.1

/-- Signal state on entry to the main simulation loop. -/
def sigLoop : Sig := initRun.2.2.1

/-- Simulation time on entry to the main simulation loop. -/
def timeLoop : Nat := initRun.2.2.2

/-- The main loop, run with enough fuel (`MAX_SIM_TIME` exceeds the number of
iterations, since the time strictly increases every iteration). -/
def loopRun : List (Nat × Sig) × Sig × Nat :=
  mainLoopF MAX_SIM_TIME sigLoop timeLoop

/-- Event trace of the main simulation loop. -/
def loopTrace : List (Nat × Sig) := loopRun.1

/-- Event trace of the entire harness run. -/
def harnessTrace : List (Nat × Sig) := initTrace ++ loopTrace

/-- Final simulation time of a loop result (the third component). -/
def finalTimeOf : List (Nat × Sig) × Sig × Nat → Nat
  | (_, _, t) => t

/-- Value of `sim_time` when the main loop exits (reported in the final
completion message). -/
def harnessFinalTime : Nat := finalTimeOf loopRun

/-- A write transaction sample: `wr_en` asserted at a rising-edge `eval()`
(the model samples the bus on rising edges). -/
def isWriteSample (e : Nat × Sig) : Bool :=
  e.2.wr_en == 1 && e.2.clk == 1

/-- Any `eval()` with `wr_en` asserted. -/
def isWrite (e : Nat × Sig) : Bool :=
  e.2.wr_en == 1

/-- Pairwise check over a state sequence: whenever `addr` or `wdata` differs
between two consecutive states, `wr_en` is 0 in the later state, i.e. the
write strobe is deasserted before the address or data lines change. -/
def wrDeassertedAtChanges : List Sig → Bool
  | a :: b :: rest =>
    (decide (a.addr = b.addr ∧ a.wdata = b.wdata) || b.wr_en == 0) &&
      wrDeassertedAtChanges (b :: rest)
  | _ => true

/-- Property of every event the main loop can emit when entered with
`wr_en = rd_en = 0`, `rst_n = 1`, `rx = 1`: writes never happen, reset stays
released, the line stays idle, dump times stay below `MAX_SIM_TIME`, and any
event with `rd_en` asserted is a STATUS read at address 1 whose dump time is
congruent to 0 or 1 modulo 100000. -/
def EvOk (e : Nat × Sig) : Prop :=
  e.2.wr_en = 0 ∧ e.2.rst_n = 1 ∧ e.2.rx = 1 ∧ e.1 < MAX_SIM_TIME ∧
  (e.2.rd_en = 1 → e.2.addr = 1 ∧ (e.1 % 100000 = 0 ∨ e.1 % 100000 = 1))

@[simp] lemma toggle_rst_n (s : Sig) : (toggle s).rst_n = s.rst_n := rfl
@[simp] lemma toggle_rx (s : Sig) : (toggle s).rx = s.rx := rfl
@[simp] lemma toggle_addr (s : Sig) : (toggle s).addr = s.addr := rfl
@[simp] lemma toggle_wdata (s : Sig) : (toggle s).wdata = s.wdata := rfl
@[simp] lemma toggle_wr_en (s : Sig) : (toggle s).wr_en = s.wr_en := rfl
@[simp] lemma toggle_rd_en (s : Sig) : (toggle s).rd_en = s.rd_en := rfl

lemma toggle_clk (s : Sig) : (toggle s).clk = if s.clk = 0 then 1 else 0 := rfl

@[simp] lemma readSig1_rst_n (s : Sig) : (readSig1 s).rst_n = s.rst_n := rfl
@[simp] lemma readSig1_rx (s : Sig) : (readSig1 s).rx = s.rx := rfl
@[simp] lemma readSig1_addr (s : Sig) : (readSig1 s).addr = 1 := rfl
@[simp] lemma readSig1_wdata (s : Sig) : (readSig1 s).wdata = s.wdata := rfl
@[simp] lemma readSig1_wr_en (s : Sig) : (readSig1 s).wr_en = s.wr_en := rfl
@[simp] lemma readSig1_rd_en (s : Sig) : (readSig1 s).rd_en = 1 := rfl

@[simp] lemma readSig2_rst_n (s : Sig) : (readSig2 s).rst_n = s.rst_n := rfl
@[simp] lemma readSig2_rx (s : Sig) : (readSig2 s).rx = s.rx := rfl
@[simp] lemma readSig2_addr (s : Sig) : (readSig2 s).addr = 1 := rfl
@[simp] lemma readSig2_wdata (s : Sig) : (readSig2 s).wdata = s.wdata := rfl
@[simp] lemma readSig2_wr_en (s : Sig) : (readSig2 s).wr_en = s.wr_en := rfl
@[simp] lemma readSig2_rd_en (s : Sig) : (readSig2 s).rd_en = 1 := rfl

@[simp] lemma readSigEnd_rst_n (s : Sig) : (readSigEnd s).rst_n = s.rst_n := rfl
@[simp] lemma readSigEnd_rx (s : Sig) : (readSigEnd s).rx = s.rx := rfl
@[simp] lemma readSigEnd_addr (s : Sig) : (readSigEnd s).addr = 1 := rfl
@[simp] lemma readSigEnd_wdata (s : Sig) : (readSigEnd s).wdata = s.wdata := rfl
@[simp] lemma readSigEnd_wr_en (s : Sig) : (readSigEnd s).wr_en = s.wr_en := rfl
@[simp] lemma readSigEnd_rd_en (s : Sig) : (readSigEnd s).rd_en = 0 := rfl

@[simp] lemma withEvents_fst (pre : List (Nat × Sig)) (r : List (Nat × Sig) × Sig × Nat) :
    (withEvents pre r).1 = pre ++ r.1 := rfl

@[simp] lemma withEvents_snd (pre : List (Nat × Sig)) (r : List (Nat × Sig) × Sig × Nat) :
    (withEvents pre r).2 = r.2 := rfl

lemma readSig1_clk (s : Sig) (t : Nat) (hc : s.clk = (t + 1) % 2) :
    (readSig1 s).clk = t % 2 := by
  have h2 : t % 2 = 0 ∨ t % 2 = 1 := Nat.mod_two_eq_zero_or_one t
  rcases h2 with h2 | h2 <;>
    simp [readSig1, toggle_clk, hc, Nat.add_mod, h2]

lemma readSig2_clk (s : Sig) (t : Nat) (hc : s.clk = (t + 1) % 2) :
    (readSig2 s).clk = (t + 1) % 2 := by
  have h2 : t % 2 = 0 ∨ t % 2 = 1 := Nat.mod_two_eq_zero_or_one t
  rcases h2 with h2 | h2 <;>
    simp [readSig2, readSig1, toggle_clk, hc, Nat.add_mod, h2]

lemma readSigEnd_clk (s : Sig) (t : Nat) (hc : s.clk = (t + 1) % 2) :
    (readSigEnd s).clk = (t + 1) % 2 := by
  have h := readSig2_clk s t hc
  simpa [readSigEnd] using h

lemma mainLoopF_events (fuel : Nat) :
    ∀ s t, s.wr_en = 0 → s.rd_en = 0 → s.rst_n = 1 → s.rx = 1 →
    ∀ e ∈ (mainLoopF fuel s t).1, EvOk e := by
  induction fuel with
  | zero =>
    intro s t _ _ _ _ e he
    simp [mainLoopF] at he
  | succ fuel ih =>
    intro s t hw hr hn hx e he
    rw [mainLoopF] at he
    by_cases h1 : t < MAX_SIM_TIME
    · rw [if_pos h1] at he
      by_cases h2 : t % 100000 = 0
      · rw [if_pos h2] at he
        simp only [withEvents_fst, List.cons_append, List.nil_append,
          List.mem_cons] at he
        rcases he with rfl | rfl | rfl | he
        · exact ⟨hw, hn, hx, h1, by simp [hr]⟩
        · exact ⟨by simp [hw], hn, hx, h1, fun _ => ⟨by simp, Or.inl h2⟩⟩
        · have hM : MAX_SIM_TIME = 1000000 := rfl
          refine ⟨by simp [hw], hn, hx, by omega, fun _ => ⟨by simp, Or.inr (by omega)⟩⟩
        · exact ih (readSigEnd (toggle s)) (t + 3) (by simp [hw]) (by simp)
            (by simp [hn]) (by simp [hx]) e he
      · rw [if_neg h2] at he
        simp only [withEvents_fst, List.cons_append, List.nil_append,
          List.mem_cons] at he
        rcases he with rfl | he
        · exact ⟨hw, hn, hx, h1, by simp [hr]⟩
        · exact ih (toggle s) (t + 1) (by simp [hw]) (by simp [hr])
            (by simp [hn]) (by simp [hx]) e he
    · rw [if_neg h1] at he
      simp at he

lemma finalTimeOf_withEvents (pre : List (Nat × Sig)) (r : List (Nat × Sig) × Sig × Nat) :
    finalTimeOf (withEvents pre r) = finalTimeOf r := by
  rcases r with ⟨tr, sg, tm⟩
  rfl

lemma mainLoopF_final (fuel : Nat) :
    ∀ s t, MAX_SIM_TIME - t ≤ fuel → t ≤ MAX_SIM_TIME →
      finalTimeOf (mainLoopF fuel s t) = MAX_SIM_TIME := by
  have hM : MAX_SIM_TIME = 1000000 := rfl
  induction fuel with
  | zero =>
    intro s t hf ht
    have ht2 : t = MAX_SIM_TIME := by omega
    simpa [mainLoopF, finalTimeOf] using ht2
  | succ fuel ih =>
    intro s t hf ht
    rw [mainLoopF]
    by_cases h1 : t < MAX_SIM_TIME
    · rw [if_pos h1]
      by_cases h2 : t % 100000 = 0
      · rw [if_pos h2, finalTimeOf_withEvents]
        exact ih (readSigEnd (toggle s)) (t + 3) (by omega) (by omega)
      · rw [if_neg h2, finalTimeOf_withEvents]
        exact ih (toggle s) (t + 1) (by omega) (by omega)
    · rw [if_neg h1]
      have ht2 : t = MAX_SIM_TIME := by omega
      simpa [finalTimeOf] using ht2

lemma mainLoopF_read_at (fuel : Nat) :
    ∀ s t m, s.rd_en = 0 → s.clk = t % 2 → MAX_SIM_TIME - t ≤ fuel →
      t ≤ m → m < MAX_SIM_TIME → m % 100000 = 0 →
      ∃ x y, (m, x) ∈ (mainLoopF fuel s t).1 ∧ (m + 1, y) ∈ (mainLoopF fuel s t).1 ∧
        x.rd_en = 1 ∧ x.addr = 1 ∧ x.clk = 0 ∧
        y.rd_en = 1 ∧ y.addr = 1 ∧ y.clk = 1 := by
  have hM : MAX_SIM_TIME = 1000000 := rfl
  induction fuel with
  | zero =>
    intro s t m _ _ hf ht hm _
    omega
  | succ fuel ih =>
    intro s t m hr hc hf ht hm hmod
    have h1 : t < MAX_SIM_TIME := lt_of_le_of_lt ht hm
    have hck : (toggle s).clk = (t + 1) % 2 := by
      have h2 : t % 2 = 0 ∨ t % 2 = 1 := Nat.mod_two_eq_zero_or_one t
      rcases h2 with h2 | h2 <;> simp [toggle_clk, hc, h2, Nat.add_mod]
    rw [mainLoopF, if_pos h1]
    by_cases h2 : t % 100000 = 0
    · rw [if_pos h2]
      by_cases htm : t = m
      · subst htm
        have hteven : t % 2 = 0 := by omega
        refine ⟨readSig1 (toggle s), readSig2 (toggle s), ?_, ?_, by simp, by simp,
          ?_, by simp, by simp, ?_⟩
        · simp [withEvents_fst]
        · simp [withEvents_fst]
        · have := readSig1_clk (toggle s) t hck
          omega
        · have := readSig2_clk (toggle s) t hck
          omega
      · have ht3 : t + 3 ≤ m := by omega
        obtain ⟨x, y, hx, hy, hprops⟩ :=
          ih (readSigEnd (toggle s)) (t + 3) m (by simp)
            (by have := readSigEnd_clk (toggle s) t hck; omega)
            (by omega) ht3 hm hmod
        refine ⟨x, y, ?_, ?_, hprops⟩
        · simp only [withEvents_fst, List.cons_append, List.nil_append, List.mem_cons]
          exact Or.inr (Or.inr (Or.inr hx))
        · simp only [withEvents_fst, List.cons_append, List.nil_append, List.mem_cons]
          exact Or.inr (Or.inr (Or.inr hy))
    · rw [if_neg h2]
      have htm : t ≠ m := by omega
      obtain ⟨x, y, hx, hy, hprops⟩ :=
        ih (toggle s) (t + 1) m (by simp [hr]) hck (by omega) (by omega) hm hmod
      refine ⟨x, y, ?_, ?_, hprops⟩
      · simp only [withEvents_fst, List.cons_append, List.nil_append, List.mem_cons]
        exact Or.inr hx
      · simp only [withEvents_fst, List.cons_append, List.nil_append, List.mem_cons]
        exact Or.inr hy

lemma loopTrace_events : ∀ e ∈ loopTrace, EvOk e :=
  mainLoopF_events MAX_SIM_TIME sigLoop timeLoop (by decide) (by decide)
    (by decide) (by decide)

/-- C1: the initialization writes divisor 27 to BAUD_DIV (addr 0x2), then 0x1
(enable) to CTRL (addr 0x0), then 0x55 to TX_DATA (addr 0x3), in this order,
each sampled at exactly one rising edge (times 12, 14, 16), and no write
transaction occurs in the main simulation loop. -/
theorem C1_init_write_sequence :
    (initTrace.filter isWriteSample).map (fun e => (e.1, e.2.addr, e.2.wdata))
        = [(12, 2, 27), (14, 0, 1), (16, 3, 0x55)]
    ∧ loopTrace.all (fun e => !(isWriteSample e)) = true := by
  refine ⟨by decide, ?_⟩
  rw [List.all_eq_true]
  intro e he
  have h := (loopTrace_events e he).1
  simp [isWriteSample, h]

/-- C2: during the ten initial reset half-periods (the first ten events) the
harness holds `rst_n = 0` with `wr_en = rd_en = 0` while the clock performs
full 0→1→0 excursions (clock starts at 0 and the first ten event samples are
1,0,1,0,…), and every event of the whole run with `wr_en` or `rd_en`
asserted has `rst_n = 1`. -/
theorem C2_reset_sequencing :
    (initTrace.take 10).all
        (fun e => e.2.rst_n == 0 && e.2.wr_en == 0 && e.2.rd_en == 0) = true
    ∧ (initTrace.take 10).map (fun e => e.2.clk) = [1, 0, 1, 0, 1, 0, 1, 0, 1, 0]
    ∧ sigZero.clk = 0
    ∧ harnessTrace.all
        (fun e => !(e.2.wr_en == 1 || e.2.rd_en == 1) || e.2.rst_n == 1) = true := by
  refine ⟨by decide, by decide, rfl, ?_⟩
  rw [harnessTrace, List.all_append, Bool.and_eq_true]
  refine ⟨by decide, ?_⟩
  rw [List.all_eq_true]
  intro e he
  have h := (loopTrace_events e he).2.1
  simp [h]

/-- C3: every bus transaction follows the documented register map: any event
with `wr_en` asserted has address 0x0, 0x2 or 0x3, and any event with
`rd_en` asserted has address 0x1. -/
theorem C3_register_map_directions :
    harnessTrace.all (fun e =>
      (!(e.2.wr_en == 1) || (e.2.addr == 0 || e.2.addr == 2 || e.2.addr == 3)) &&
      (!(e.2.rd_en == 1) || e.2.addr == 1)) = true := by
  rw [harnessTrace, List.all_append, Bool.and_eq_true]
  refine ⟨by decide, ?_⟩
  rw [List.all_eq_true]
  intro e he
  obtain ⟨hw, -, -, -, hrd⟩ := loopTrace_events e he
  by_cases h : e.2.rd_en = 1
  · obtain ⟨ha, -⟩ := hrd h
    simp [hw, h, ha]
  · simp [hw, h]

/-- C4: at no `eval()` of the entire run are `wr_en` and `rd_en` both
asserted. -/
theorem C4_no_simultaneous_read_write :
    harnessTrace.all (fun e => !(e.2.wr_en == 1 && e.2.rd_en == 1)) = true := by
  rw [harnessTrace, List.all_append, Bool.and_eq_true]
  refine ⟨by decide, ?_⟩
  rw [List.all_eq_true]
  intro e he
  have h := (loopTrace_events e he).1
  simp [h]

/-- C5: the only rising-edge write to BAUD_DIV (addr 0x2) is sampled at time
12, the only rising-edge CTRL write with the enable bit set (addr 0x0, odd
`wdata`) is sampled at time 14, and 12 < 14, so the divisor is written
exactly once, strictly before enabling, and never afterwards. -/
theorem C5_divisor_written_while_disabled :
    (harnessTrace.filter (fun e => isWriteSample e && e.2.addr == 2)).map
        Prod.fst = [12]
    ∧ (harnessTrace.filter
        (fun e => isWriteSample e && e.2.addr == 0 && e.2.wdata % 2 == 1)).map
        Prod.fst = [14]
    ∧ (12 : Nat) < 14 := by
  have hloop : ∀ p : Nat × Sig → Bool,
      (∀ e, e.2.wr_en = 0 → p e = false) → loopTrace.filter p = [] := by
    intro p hp
    rw [List.filter_eq_nil_iff]
    intro e he
    have h := (loopTrace_events e he).1
    simp [hp e h]
  constructor
  · rw [harnessTrace, List.filter_append, List.map_append,
      hloop _ (fun e h => by simp [isWriteSample, h])]
    decide
  constructor
  · rw [harnessTrace, List.filter_append, List.map_append,
      hloop _ (fun e h => by simp [isWriteSample, h])]
    decide
  · decide

/-- C6: all read activity of the run is the periodic STATUS polling: any
event with `rd_en` asserted is at address 0x1 with a dump time congruent to
0 or 1 modulo 100000, the initialization phase issues no read, and for every
multiple `m` of 100000 reached by the loop (from loop entry up to
`MAX_SIM_TIME`) the trace contains the two read events of a full clock
toggle: one at time `m` with `clk = 0` and one at `m + 1` with `clk = 1`,
both with `rd_en = 1` and address 0x1. -/
theorem C6_periodic_status_reads :
    harnessTrace.all (fun e => !(e.2.rd_en == 1) ||
        (e.2.addr == 1 && (e.1 % 100000 == 0 || e.1 % 100000 == 1))) = true
    ∧ initTrace.all (fun e => e.2.rd_en == 0) = true
    ∧ ∀ m : Nat, m % 100000 = 0 → timeLoop ≤ m → m < MAX_SIM_TIME →
        ∃ x y, (m, x) ∈ loopTrace ∧ (m + 1, y) ∈ loopTrace ∧
          x.rd_en = 1 ∧ x.addr = 1 ∧ x.clk = 0 ∧
          y.rd_en = 1 ∧ y.addr = 1 ∧ y.clk = 1 := by
  refine ⟨?_, by decide, ?_⟩
  · rw [harnessTrace, List.all_append, Bool.and_eq_true]
    refine ⟨by decide, ?_⟩
    rw [List.all_eq_true]
    intro e he
    obtain ⟨-, -, -, -, hrd⟩ := loopTrace_events e he
    by_cases h : e.2.rd_en = 1
    · obtain ⟨ha, hm⟩ := hrd h
      rcases hm with hm | hm <;> simp [h, ha, hm]
    · simp [h]
  · intro m hmod hml hmM
    exact mainLoopF_read_at MAX_SIM_TIME sigLoop timeLoop m (by decide) (by decide)
      (Nat.sub_le MAX_SIM_TIME timeLoop) hml hmM hmod

/-- C6 witness: at `m = 100000`, the first multiple of 100000 after loop
entry, the loop trace contains the STATUS-read toggle pair. -/
theorem C6_periodic_status_reads_witness :
    (100000 : Nat) % 100000 = 0 ∧ timeLoop ≤ 100000 ∧ (100000 : Nat) < MAX_SIM_TIME ∧
    (∃ x y, ((100000 : Nat), x) ∈ loopTrace ∧ ((100000 : Nat) + 1, y) ∈ loopTrace ∧
      x.rd_en = 1 ∧ x.addr = 1 ∧ x.clk = 0 ∧
      y.rd_en = 1 ∧ y.addr = 1 ∧ y.clk = 1) :=
  ⟨by decide, by decide, by decide,
    C6_periodic_status_reads.2.2 100000 (by decide) (by decide) (by decide)⟩

/-- C7: `rx` is driven to 1 (serial idle) by the third initialization
assignment, before the first clock edge, and every subsequently reached
state of the whole run keeps `rx = 1`. -/
theorem C7_rx_idle_high :
    (initStates.drop 2).all (fun s => s.rx == 1) = true
    ∧ loopTrace.all (fun e => e.2.rx == 1) = true := by
  refine ⟨by decide, ?_⟩
  rw [List.all_eq_true]
  intro e he
  have h := (loopTrace_events e he).2.2.1
  simp [h]

/-- C8: the rising-edge write transactions of the entire run are exactly the
three initialization writes to addresses 0x2, 0x0, 0x3 (times 12, 14, 16),
each occurring once, and `wr_en` stays 0 at every event of the main loop, so
no further write — in particular no flag-clearing write — ever occurs. -/
theorem C8_no_writes_after_init :
    (harnessTrace.filter isWriteSample).map (fun e => (e.1, e.2.addr))
        = [(12, 2), (14, 0), (16, 3)]
    ∧ loopTrace.all (fun e => e.2.wr_en == 0) = true := by
  have hwr : ∀ e ∈ loopTrace, e.2.wr_en = 0 := fun e he => (loopTrace_events e he).1
  constructor
  · rw [harnessTrace, List.filter_append, List.map_append]
    have : loopTrace.filter isWriteSample = [] := by
      rw [List.filter_eq_nil_iff]
      intro e he
      simp [isWriteSample, hwr e he]
    rw [this]
    decide
  · rw [List.all_eq_true]
    intro e he
    simp [hwr e he]

/-- C9: each initialization write is a clean one-period pulse: the events
with `wr_en` asserted are exactly three pairs of consecutive dumps (times
12–13, 14–15, 16–17), each pair holding `addr`/`wdata` stable across one
rising edge (`clk = 1`) and one falling edge (`clk = 0`); moreover, at
statement granularity, whenever `addr` or `wdata` changes between
consecutive states, `wr_en` is 0, so each write is sampled by exactly one
rising edge and applies to exactly one register exactly once. -/
theorem C9_write_pulse_shape :
    (initTrace.filter isWrite).map (fun e => (e.1, e.2.clk, e.2.addr, e.2.wdata))
        = [(12, 1, 2, 27), (13, 0, 2, 27), (14, 1, 0, 1), (15, 0, 0, 1),
           (16, 1, 3, 0x55), (17, 0, 3, 0x55)]
    ∧ wrDeassertedAtChanges initStates = true
    ∧ loopTrace.all (fun e => !(isWrite e)) = true := by
  refine ⟨by decide, by decide, ?_⟩
  rw [List.all_eq_true]
  intro e he
  have h := (loopTrace_events e he).1
  simp [isWrite, h]

/-- C10: the main simulation loop terminates with `sim_time` equal to
`MAX_SIM_TIME = 1000000` (in particular `sim_time ≥ 1000000` at the final
completion message), and every dump the loop performs happens at a time
strictly below `MAX_SIM_TIME`. -/
theorem C10_loop_terminates_at_max :
    harnessFinalTime = MAX_SIM_TIME
    ∧ loopTrace.all (fun e => decide (e.1 < MAX_SIM_TIME)) = true := by
  constructor
  · have h1 : harnessFinalTime = finalTimeOf loopRun := rfl
    have h2 : loopRun = mainLoopF MAX_SIM_TIME sigLoop timeLoop := rfl
    rw [h1, h2]
    exact mainLoopF_final MAX_SIM_TIME sigLoop timeLoop
      (Nat.sub_le MAX_SIM_TIME timeLoop) (by decide)
  · rw [List.all_eq_true]
    intro e he
    simpa using (loopTrace_events e he).2.2.2.1
